import Mathlib

/-!
Verification of the Autoinstallpackages repository against its specification.

The repository has two Python GUI programs:
* `autoinstallpackages_gui.py` — the v4 GUI whose `_run_real_installation`
  method runs a linear sequence of shell commands (system validation,
  system update, paru bootstrap, GPU drivers, per-category installs,
  optional optimizations and cleanup), posting progress-bar updates and
  log lines around each phase.
* `gui/app.py` — a Tkinter wrapper around a Bash script, with a
  worker-thread / FIFO-queue / UI-timer pattern for streaming subprocess
  output into a log widget.

The shallow embedding below turns each method into a pure Lean function.
Effects (log-widget inserts, progress-bar updates, shell command
invocations) are recorded as an explicit trace of `Event`s; results of
the outside world (exit codes of commands, contents of `/etc/os-release`,
`lspci` output, ...) are fields of an `Env` record.
-/

namespace Autoinstall

/-- sequContains pat hay decides whether `pat` occurs as a contiguous
subsequence of `hay`; it models the Python `pat in hay` test on strings
(applied to the character lists of the strings). -/
def sequContains (pat : List Char) : List Char → Bool
  | [] => pat.isEmpty
  | c :: t => pat.isPrefixOf (c :: t) || sequContains pat t

/-- strContains hay pat models the Python expression `pat in hay` for strings. -/
def strContains (hay pat : String) : Bool :=
  sequContains pat.data hay.data

/-- lowerStr models Python `str.lower()` (ASCII case folding suffices for the
strings the program inspects). -/
def lowerStr (s : String) : String :=
  String.mk (s.data.map Char.toLower)

/-- strip models Python `str.strip()`: remove leading and trailing whitespace. -/
def strip (s : String) : String :=
  String.mk (((s.data.dropWhile Char.isWhitespace).reverse.dropWhile Char.isWhitespace).reverse)

/-- Event is one observable effect of the installation thread:
a progress-bar update `_update_progress(current, total, text)`,
a log-widget line `_add_log(message, level)`, or the invocation of
`_run_command` with a shell command string. -/
inductive Event where
  | progress (current total : Nat) (text : String)
  | log (message level : String)
  | cmd (command : String)
deriving DecidableEq

/-- SysEnv holds the facts about the machine that `_validate_system` probes.
`osRelease = none` models the open or read of /etc/os-release raising;
`pingExit = none` models the `ping` subprocess raising (e.g. the 5-second
timeout expiring). -/
structure SysEnv where
  osRelease : Option String
  euid : Nat
  pingExit : Option Int

/-- Env holds every outside-world response the installation run can observe.
Command-indexed fields model what the shell returns for each command string. -/
structure Env where
  /-- exit status of a shell command: `true` iff returncode 0 (`_run_command`). -/
  cmdResult : String → Bool
  /-- whether Popen or reading raises for this command (the except branch of `_run_command`). -/
  cmdRaises : String → Bool
  /-- the exception text when `cmdRaises` is true. -/
  cmdErrorMsg : String → String
  /-- raw stdout lines of the command (before `strip()` filtering). -/
  cmdOutput : String → List String
  /-- result of `which paru` being exit 0 (`_check_paru`; also false when it raises). -/
  paruInstalled : Bool
  /-- stdout of `lspci`; `none` models the except branch of `_install_gpu_drivers`. -/
  gpuInfo : Option String
  /-- exception text for the GPU-detection except branch. -/
  gpuErrorMsg : String
  /-- `os.cpu_count()`. -/
  cpuCount : Nat
  /-- the USER environment variable (os.getenv). -/
  userName : Option String
  /-- stdout of `pacman -Qtdq` when its returncode is 0; `none` models a non-zero returncode. -/
  orphanOut : Option String
  sys : SysEnv

/-- validate_system embeds `_validate_system`: Arch check on /etc/os-release,
non-root check, and a single ping with 5 second timeout; every exception
path yields `false`. -/
def validate_system (e : SysEnv) : Bool :=
  match e.osRelease with
  | none => false
  | some txt =>
    if !(strContains txt "Arch Linux") then false
    else if e.euid == 0 then false
    else
      match e.pingExit with
      | none => false
      | some rc => rc == 0

/-- run_command embeds `_run_command cmd`: it records the invocation (`Event.cmd`),
posts the `[CMD]` log line, then either posts the error line (except branch) or
posts each non-empty stripped output line, and returns whether the command
exited 0. -/
def run_command (env : Env) (cmd : String) : List Event × Bool :=
  if env.cmdRaises cmd then
    ([Event.cmd cmd, Event.log ("[CMD] " ++ cmd) "INFO",
      Event.log ("[ERROR] Command failed: " ++ env.cmdErrorMsg cmd) "ERROR"], false)
  else
    (Event.cmd cmd :: Event.log ("[CMD] " ++ cmd) "INFO" ::
      ((env.cmdOutput cmd).filterMap fun l =>
        if strip l == "" then none else some (Event.log (strip l) "INFO")),
     env.cmdResult cmd)

/-- PackageCategory mirrors the Python class of the same name. -/
structure PackageCategory where
  key : String
  name : String
  icon : String
  description : String
  pacman_packages : List String
  aur_packages : List String
  selected : Bool
deriving DecidableEq

/-- app_categories embeds `_initialize_categories` (a dict in the source; the
list keeps its insertion order). Each category starts unselected, as in the
`PackageCategory` constructor. -/
def app_categories : List PackageCategory :=
  [{ key := "gaming", name := "Gaming", icon := "🎮",
     description := "Gaming platforms and tools for optimal gaming experience",
     pacman_packages := ["steam", "lutris", "gamemode", "lib32-mesa", "vulkan-tools"],
     aur_packages := ["heroic-games-launcher-bin", "prismlauncher-qt5"],
     selected := false },
   { key := "multimedia", name := "Multimedia", icon := "🎵",
     description := "Media applications and communication tools",
     pacman_packages := ["discord", "thunderbird", "vlc", "obs-studio"],
     aur_packages := ["spotify"],
     selected := false },
   { key := "development", name := "Development", icon := "💻",
     description := "Development tools and code editors",
     pacman_packages := ["neovim", "git", "base-devel", "docker", "nodejs", "npm"],
     aur_packages := ["visual-studio-code-bin", "github-desktop-bin"],
     selected := false },
   { key := "system", name := "System Tools", icon := "⚙️",
     description := "System utilities and administration tools",
     pacman_packages := ["timeshift", "htop", "btop", "yazi", "fastfetch", "tree", "unzip"],
     aur_packages := ["arch-update"],
     selected := false },
   { key := "office", name := "Office Suite", icon := "📄",
     description := "Complete office productivity suite",
     pacman_packages := ["libreoffice-fresh", "libreoffice-fresh-en-us"],
     aur_packages := ["onlyoffice-bin"],
     selected := false },
   { key := "privacy", name := "Privacy Tools", icon := "🔒",
     description := "Privacy and security applications",
     pacman_packages := ["torbrowser-launcher", "gnupg", "veracrypt"],
     aur_packages := ["signal-desktop", "simplex-chat"],
     selected := false }]

/-- sq is the single-quote character, used verbatim inside two sed command strings. -/
def sq : String := String.mk [Char.ofNat 39]

/-- install_paru_loop embeds the `for cmd in commands` loop of `_install_paru`:
run each command, stopping with a warning log after the first failure. -/
def install_paru_loop (env : Env) : List String → List Event
  | [] => []
  | c :: rest =>
    if (run_command env c).2 then
      (run_command env c).1 ++ install_paru_loop env rest
    else
      (run_command env c).1 ++ [Event.log "[WARNING] Paru installation may have issues" "WARNING"]

/-- install_paru embeds `_install_paru`: log, install base-devel and git, then
clone and build paru in /tmp/paru_install (stopping on first failure), then
remove the temp dir. -/
def install_paru (env : Env) : List Event :=
  Event.log "[INFO] Installing paru AUR helper..." "INFO" ::
    ((run_command env "sudo pacman -S --needed --noconfirm base-devel git").1 ++
     (install_paru_loop env
       ["rm -rf /tmp/paru_install",
        "git clone https://aur.archlinux.org/paru.git /tmp/paru_install",
        "cd /tmp/paru_install && makepkg -si --noconfirm"] ++
      (run_command env "rm -rf /tmp/paru_install").1))

/-- gpu_detection is the vendor-test block of `_install_gpu_drivers` applied to
the lowercased `lspci` output: the log line posted by the matching branch and
the driver list that branch assigns. -/
def gpu_detection (gpu_info : String) : List Event × List String :=
  if strContains gpu_info "amd" || strContains gpu_info "radeon" then
    ([Event.log "[INFO] AMD GPU detected" "INFO"],
     ["mesa", "lib32-mesa", "vulkan-radeon", "lib32-vulkan-radeon"])
  else if strContains gpu_info "nvidia" then
    ([Event.log "[INFO] NVIDIA GPU detected" "INFO"],
     ["nvidia", "nvidia-utils", "lib32-nvidia-utils"])
  else if strContains gpu_info "intel" then
    ([Event.log "[INFO] Intel GPU detected" "INFO"],
     ["mesa", "lib32-mesa", "vulkan-intel", "lib32-vulkan-intel"])
  else ([], [])

/-- install_gpu_drivers embeds `_install_gpu_drivers`: inspect the lowercased
`lspci` output, log the detected vendor and pick a driver list, then install
the drivers (or log that none are needed); a detection exception logs a warning. -/
def install_gpu_drivers (env : Env) : List Event :=
  match env.gpuInfo with
  | none => [Event.log ("[WARNING] GPU detection failed: " ++ env.gpuErrorMsg) "WARNING"]
  | some out =>
    (gpu_detection (lowerStr out)).1 ++
      (if (gpu_detection (lowerStr out)).2.isEmpty then
        [Event.log "[INFO] No specific GPU drivers needed" "INFO"]
      else
        (run_command env
          ("sudo pacman -S --needed --noconfirm " ++
           String.intercalate " " (gpu_detection (lowerStr out)).2)).1)

/-- apply_optimizations embeds `_apply_optimizations` (the pacman.conf and
makepkg.conf sed edits and the gamemode group membership). -/
def apply_optimizations (env : Env) : List Event :=
  (run_command env
    ("sudo sed -i " ++ sq ++ "s/#ParallelDownloads = 5/ParallelDownloads = 10/" ++ sq ++
     " /etc/pacman.conf")).1 ++
  ((run_command env
    ("sudo sed -i " ++ sq ++ "s/#MAKEFLAGS=\"-j2\"/MAKEFLAGS=\"-j" ++ toString env.cpuCount ++
     "\"/" ++ sq ++ " /etc/makepkg.conf")).1 ++
   (match env.userName with
    | some username => (run_command env ("sudo usermod -aG gamemode " ++ username)).1
    | none => []))

/-- cleanup_system embeds `_cleanup_system`: paccache, paru cache clean when
paru is present, then removal of orphaned packages reported by `pacman -Qtdq`
(nothing to remove logs an info line). -/
def cleanup_system (env : Env) : List Event :=
  (run_command env "sudo paccache -r").1 ++
  ((if env.paruInstalled then (run_command env "paru -Sc --noconfirm").1 else []) ++
   (match env.orphanOut with
    | some out =>
      if strip out == "" then [Event.log "[INFO] No orphaned packages found" "INFO"]
      else (run_command env ("sudo pacman -Rns --noconfirm " ++ strip out)).1
    | none => [Event.log "[INFO] No orphaned packages found" "INFO"]))

/-- Options models the two advanced-option checkboxes `_run_real_installation`
reads (`flatpak` and `ml4w_dotfiles` are never read by the run). Both default
to checked in the source. -/
structure Options where
  optimizations : Bool
  cleanup : Bool
deriving DecidableEq

/-- validation_ok_segment is step 1 of `_run_real_installation` when
`_validate_system` succeeds. -/
def validation_ok_segment (total : Nat) : List Event :=
  [Event.progress 0 total "Validating system...",
   Event.log "[INFO] Validating system requirements..." "INFO",
   Event.log "[SUCCESS] System validation passed" "SUCCESS"]

/-- validation_failed_trace is the whole trace when `_validate_system` fails:
the run raises `Exception("System validation failed")` which the handler logs. -/
def validation_failed_trace (total : Nat) : List Event :=
  [Event.progress 0 total "Validating system...",
   Event.log "[INFO] Validating system requirements..." "INFO",
   Event.log "[ERROR] Installation failed: System validation failed" "ERROR"]

/-- update_segment is step 2 of `_run_real_installation` (system update). -/
def update_segment (env : Env) (total : Nat) : List Event :=
  Event.progress 1 total "Updating system..." ::
  Event.log "[INFO] Updating system packages..." "INFO" ::
  ((run_command env "sudo pacman -Syu --noconfirm").1 ++
   [if (run_command env "sudo pacman -Syu --noconfirm").2 then
      Event.log "[SUCCESS] System updated successfully" "SUCCESS"
    else Event.log "[WARNING] System update had issues" "WARNING"])

/-- paru_segment is step 3 of `_run_real_installation` (AUR helper bootstrap);
`_install_paru` runs only when `_check_paru` reports paru missing. -/
def paru_segment (env : Env) (total : Nat) : List Event :=
  Event.progress 2 total "Installing AUR helper..." ::
  Event.log "[INFO] Checking for paru AUR helper..." "INFO" ::
  ((if env.paruInstalled then [] else install_paru env) ++
   [Event.log "[SUCCESS] AUR helper ready" "SUCCESS"])

/-- gpu_segment is step 4 of `_run_real_installation` (GPU driver detection
and installation). -/
def gpu_segment (env : Env) (total : Nat) : List Event :=
  Event.progress 3 total "Installing GPU drivers..." ::
  Event.log "[INFO] Detecting and installing GPU drivers..." "INFO" ::
  (install_gpu_drivers env ++
   [Event.log "[SUCCESS] GPU drivers installed" "SUCCESS"])

/-- category_segment is one iteration of the `for category in selected_categories`
loop of `_run_real_installation`: progress and info, then the pacman install
(when the pacman list is non-empty) with its success/warning line, then the
AUR install (when the AUR list is non-empty) with its success/warning line. -/
def category_segment (env : Env) (total step : Nat) (c : PackageCategory) : List Event :=
  Event.progress step total ("Installing " ++ c.name ++ "...") ::
  Event.log ("[INFO] Installing " ++ c.name ++ " packages...") "INFO" ::
  ((if c.pacman_packages.isEmpty then [] else
     (run_command env
       ("sudo pacman -S --needed --noconfirm " ++ String.intercalate " " c.pacman_packages)).1 ++
     [if (run_command env
          ("sudo pacman -S --needed --noconfirm " ++ String.intercalate " " c.pacman_packages)).2 then
        Event.log ("[SUCCESS] " ++ c.name ++ " pacman packages installed") "SUCCESS"
      else Event.log ("[WARNING] Some " ++ c.name ++ " pacman packages failed") "WARNING"]) ++
   (if c.aur_packages.isEmpty then [] else
     (run_command env
       ("paru -S --needed --noconfirm " ++ String.intercalate " " c.aur_packages)).1 ++
     [if (run_command env
          ("paru -S --needed --noconfirm " ++ String.intercalate " " c.aur_packages)).2 then
        Event.log ("[SUCCESS] " ++ c.name ++ " AUR packages installed") "SUCCESS"
      else Event.log ("[WARNING] Some " ++ c.name ++ " AUR packages failed") "WARNING"]))

/-- cat_segments is the whole per-category loop, `step` being the value of
`current_step` on entering the iteration (it starts at 4 and is incremented
once per iteration). -/
def cat_segments (env : Env) (total : Nat) : Nat → List PackageCategory → List (List Event)
  | _, [] => []
  | step, c :: rest => category_segment env total step c :: cat_segments env total (step + 1) rest

/-- optimizations_segment is the optional optimizations step (current_step is
not incremented before the cleanup step, so both use `4 + number of categories`). -/
def optimizations_segment (env : Env) (total step : Nat) : List Event :=
  Event.progress step total "Applying optimizations..." ::
  Event.log "[INFO] Applying system optimizations..." "INFO" ::
  (apply_optimizations env ++
   [Event.log "[SUCCESS] System optimizations applied" "SUCCESS"])

/-- cleanup_segment is the optional cleanup step. -/
def cleanup_segment (env : Env) (total step : Nat) : List Event :=
  Event.progress step total "Cleaning system..." ::
  Event.log "[INFO] Cleaning system..." "INFO" ::
  (cleanup_system env ++
   [Event.log "[SUCCESS] System cleaned" "SUCCESS"])

/-- installSegments lists the successive blocks of `_run_real_installation`:
`total_steps = 5 + len(selected_categories)`; after a successful validation the
run performs update, paru bootstrap, GPU drivers, one block per selected
category (current_step starting at 4), then the optional optimizations and
cleanup blocks; a failed validation aborts the run at once. -/
def installSegments (env : Env) (opts : Options) (cats : List PackageCategory) :
    List (List Event) :=
  if validate_system env.sys then
    validation_ok_segment (5 + cats.length) ::
      update_segment env (5 + cats.length) ::
      paru_segment env (5 + cats.length) ::
      gpu_segment env (5 + cats.length) ::
      (cat_segments env (5 + cats.length) 4 cats ++
       ((if opts.optimizations then
           [optimizations_segment env (5 + cats.length) (4 + cats.length)] else []) ++
        (if opts.cleanup then
           [cleanup_segment env (5 + cats.length) (4 + cats.length)] else [])))
  else [validation_failed_trace (5 + cats.length)]

/-- run_real_installation is the full event trace of `_run_real_installation`
on the selected categories. -/
def run_real_installation (env : Env) (opts : Options) (cats : List PackageCategory) :
    List Event :=
  (installSegments env opts cats).flatten

/-- AppState is the part of the `AutoInstallGUI` state that `_start_installation`
reads and writes (the widget layout changes of `_show_installation_view` are
not data). -/
structure AppState where
  categories : List PackageCategory
  is_installing : Bool
deriving DecidableEq

/-- start_installation embeds `_start_installation`: refuse re-entry while
`is_installing`, refuse an empty selection, ask for confirmation, and
otherwise set `is_installing` and hand the selected-category list to the
installation thread (returned as `some list`; `none` means no thread started). -/
def start_installation (st : AppState) (confirmed : Bool) :
    AppState × Option (List PackageCategory) :=
  if st.is_installing then (st, none)
  else
    if (st.categories.filter fun c => c.selected).isEmpty then (st, none)
    else if confirmed then
      ({ st with is_installing := true }, some (st.categories.filter fun c => c.selected))
    else (st, none)

/-! The wrapper GUI `gui/app.py`. -/

/-- ProcState is what `self.proc.poll()` can reveal about the spawned
subprocess: still running (`poll()` is None) or exited with a code. -/
inductive ProcState where
  | running
  | exited (rc : Int)
deriving DecidableEq

/-- procRunning models the Python guard `self.proc and self.proc.poll() is None`. -/
def procRunning : Option ProcState → Bool
  | some ProcState.running => true
  | _ => false

/-- tagFor embeds the tag selection of `_poll_queue` for one dequeued line. -/
def tagFor (line : String) : Option String :=
  if strContains line "FAIL" || strContains (lowerStr line) "error" then some "err"
  else if strContains line "OK" || strContains (lowerStr line) "done" then some "ok"
  else if strContains (lowerStr line) "warn" then some "warn"
  else none

/-- WrapState is the data state of the wrapper `App`: the subprocess handle,
the log text (each entry a line with its colour tag), whether the progress bar
is animating, and whether the Install button is enabled. -/
structure WrapState where
  proc : Option ProcState
  shown : List (String × Option String)
  progressRunning : Bool
  installEnabled : Bool
deriving DecidableEq

/-- run_async embeds `_run_async`: when an execution is already in progress it
only shows a warning dialog (no state change, no worker — returned as `none`);
otherwise it appends the separator and title lines, starts the progress bar,
disables the Install button and spawns the worker on `args` (returned as
`some args`). -/
def run_async (s : WrapState) (args : List String) (title : String) :
    WrapState × Option (List String) :=
  if procRunning s.proc then (s, none)
  else
    ({ s with
        shown := s.shown ++ [(String.mk (List.replicate 60 (Char.ofNat 61)), none), (title, none)],
        progressRunning := true,
        installEnabled := false },
     some args)

/-- run_install_args embeds the argument-list construction of `run_install`
(`script` is the absolute path of `v5/simple-postinstall.sh`). -/
def run_install_args (script : String) (profile : String)
    (var_gaming var_chromium var_chrome var_spotify : Bool) : List String :=
  let args0 := ["bash", script, "--yes", "--profile", profile]
  let args1 := if var_gaming then args0 ++ ["--gaming-extras"] else args0
  let args2 :=
    if profile == "gaming" && !(args1.contains "--gaming-extras") then
      args1 ++ ["--gaming-extras"]
    else args1
  let args3 := if var_chromium then args2 ++ ["--install-chromium"] else args2
  let args4 := if var_chrome then args3 ++ ["--install-chrome"] else args3
  if var_spotify then args4 ++ ["--install-spotify"] else args4

/-! The asynchronous runner pattern of `gui/app.py`: the worker thread reads
subprocess output lines and puts them (in read order) into the FIFO
`queue.Queue`, and the UI timer `_poll_queue` takes lines off the queue and
appends them to the log widget. The interleaving of the two threads is
modelled by an arbitrary list of steps. -/

/-- RunnerState: `pending` are the subprocess output lines the worker has not
yet read (in production order), `q` is the FIFO queue contents (front first),
`shown` is the log widget contents. -/
structure RunnerState where
  pending : List String
  q : List String
  shown : List (String × Option String)
deriving DecidableEq

/-- RunnerStep: either the worker reads the next output line and enqueues it
(`produce`, one `self.q.put(...)`), or the UI timer dequeues one line and
appends it to the log (`pollOne`, one `self.q.get_nowait()` plus `append`). -/
inductive RunnerStep where
  | produce
  | pollOne
deriving DecidableEq

/-- runnerStep performs one step of either thread; steps with nothing to do
(no pending line, empty queue) change nothing. -/
def runnerStep (s : RunnerState) : RunnerStep → RunnerState
  | RunnerStep.produce =>
    match s.pending with
    | [] => s
    | l :: rest => { s with pending := rest, q := s.q ++ [l] }
  | RunnerStep.pollOne =>
    match s.q with
    | [] => s
    | l :: rest => { s with q := rest, shown := s.shown ++ [(l, tagFor l)] }

/-- runSteps runs a whole interleaving of worker and UI-timer steps. -/
def runSteps (s : RunnerState) (steps : List RunnerStep) : RunnerState :=
  steps.foldl runnerStep s

/-! Extractors over traces. -/

/-- cmdEvents lists the shell commands a trace hands to `_run_command`, in order. -/
def cmdEvents (t : List Event) : List String :=
  t.filterMap fun e =>
    match e with
    | Event.cmd s => some s
    | _ => none

/-- phaseTexts lists the progress-bar texts of a trace, in order (one per
`_update_progress` call). -/
def phaseTexts (t : List Event) : List String :=
  t.filterMap fun e =>
    match e with
    | Event.progress _ _ s => some s
    | _ => none

/-- progressSteps lists the (current, total) pairs of the progress-bar updates
of a trace, in order. -/
def progressSteps (t : List Event) : List (Nat × Nat) :=
  t.filterMap fun e =>
    match e with
    | Event.progress c tot _ => some (c, tot)
    | _ => none

/-- isProgressEvent recognises a progress-bar update. -/
def isProgressEvent : Event → Bool
  | Event.progress _ _ _ => true
  | _ => false

/-- isInfoLogEvent recognises a log line of level INFO whose text starts with
the `[INFO]` marker. -/
def isInfoLogEvent : Event → Bool
  | Event.log m lv => lv == "INFO" && "[INFO] ".data.isPrefixOf m.data
  | _ => false

/-- isOutcomeLogEvent recognises a log line of level SUCCESS or WARNING. -/
def isOutcomeLogEvent : Event → Bool
  | Event.log _ lv => lv == "SUCCESS" || lv == "WARNING"
  | _ => false

/-- wrappedSegment states the claim-C6 wrapping of one installation block:
the block opens with a progress-bar update followed by an `[INFO]` log line,
and closes with a SUCCESS or WARNING log line. -/
def wrappedSegment (seg : List Event) : Bool :=
  (seg.head?.elim false isProgressEvent) &&
  ((seg.drop 1).head?.elim false isInfoLogEvent) &&
  (seg.getLast?.elim false isOutcomeLogEvent)

/-! Concrete inputs used by witnesses and counterexamples. -/

/-- sysArch is a machine state that passes `_validate_system`. -/
def sysArch : SysEnv :=
  { osRelease := some "NAME=\"Arch Linux\"", euid := 1000, pingExit := some 0 }

/-- env0 is a concrete quiet environment: every command succeeds with no
output, paru is installed, the GPU is not recognised, and validation passes. -/
def env0 : Env :=
  { cmdResult := fun _ => true
    cmdRaises := fun _ => false
    cmdErrorMsg := fun _ => ""
    cmdOutput := fun _ => []
    paruInstalled := true
    gpuInfo := some "00:02.0 VGA compatible controller"
    gpuErrorMsg := ""
    cpuCount := 4
    userName := none
    orphanOut := none
    sys := sysArch }

/-- envRoot is env0 run as root, so `_validate_system` fails. -/
def envRoot : Env :=
  { env0 with sys := { sysArch with euid := 0 } }

/-- gamingSel is the Gaming category with its checkbox ticked. -/
def gamingSel : PackageCategory :=
  { key := "gaming", name := "Gaming", icon := "🎮",
    description := "Gaming platforms and tools for optimal gaming experience",
    pacman_packages := ["steam", "lutris", "gamemode", "lib32-mesa", "vulkan-tools"],
    aur_packages := ["heroic-games-launcher-bin", "prismlauncher-qt5"],
    selected := true }

/-- optsAll has both optional steps enabled (the defaults of the Options panel). -/
def optsAll : Options := { optimizations := true, cleanup := true }

/-- optsNoCleanup has the Auto Cleanup checkbox cleared. -/
def optsNoCleanup : Options := { optimizations := true, cleanup := false }

/-- stIdle is an application state with one selected category and no
installation in progress. -/
def stIdle : AppState := { categories := [gamingSel], is_installing := false }

/-- stBusy is an application state in which an installation is running. -/
def stBusy : AppState := { categories := [gamingSel], is_installing := true }

/-- wrapBusy is a wrapper-GUI state whose subprocess is still running. -/
def wrapBusy : WrapState :=
  { proc := some ProcState.running, shown := [], progressRunning := true,
    installEnabled := false }

/-- isLogEvent recognises any log-widget event. -/
def isLogEvent : Event → Bool
  | Event.log _ _ => true
  | _ => false

/-- progressEvents lists all data of the progress-bar updates of a trace. -/
def progressEvents (t : List Event) : List (Nat × Nat × String) :=
  t.filterMap fun e =>
    match e with
    | Event.progress c tot s => some (c, tot, s)
    | _ => none

/-- catProg is the closed form of the progress updates of the per-category
loop: one update per category, with consecutive current-step values. -/
def catProg (total : Nat) : Nat → List PackageCategory → List (Nat × Nat × String)
  | _, [] => []
  | k, c :: rest => (k, total, "Installing " ++ c.name ++ "...") :: catProg total (k + 1) rest

/-! Helper lemmas about the extractors. -/

theorem phaseTexts_append (a b : List Event) :
    phaseTexts (a ++ b) = phaseTexts a ++ phaseTexts b :=
  List.filterMap_append ..

theorem progressSteps_append (a b : List Event) :
    progressSteps (a ++ b) = progressSteps a ++ progressSteps b :=
  List.filterMap_append ..

theorem cmdEvents_append (a b : List Event) :
    cmdEvents (a ++ b) = cmdEvents a ++ cmdEvents b :=
  List.filterMap_append ..

theorem phaseTexts_eq_nil (t : List Event) (h : ∀ e ∈ t, isProgressEvent e = false) :
    phaseTexts t = [] := by
  induction t with
  | nil => rfl
  | cons e rest ih =>
    have he := h e (List.mem_cons_self ..)
    have hrest := ih fun x hx => h x (List.mem_cons_of_mem _ hx)
    cases e with
    | progress c tot s => simp [isProgressEvent] at he
    | log m lv => simpa [phaseTexts] using hrest
    | cmd s => simpa [phaseTexts] using hrest

theorem progressSteps_eq_nil (t : List Event) (h : ∀ e ∈ t, isProgressEvent e = false) :
    progressSteps t = [] := by
  induction t with
  | nil => rfl
  | cons e rest ih =>
    have he := h e (List.mem_cons_self ..)
    have hrest := ih fun x hx => h x (List.mem_cons_of_mem _ hx)
    cases e with
    | progress c tot s => simp [isProgressEvent] at he
    | log m lv => simpa [progressSteps] using hrest
    | cmd s => simpa [progressSteps] using hrest

theorem cmdEvents_of_logs (t : List Event) (h : ∀ e ∈ t, isLogEvent e = true) :
    cmdEvents t = [] := by
  induction t with
  | nil => rfl
  | cons e rest ih =>
    have he := h e (List.mem_cons_self ..)
    have hrest := ih fun x hx => h x (List.mem_cons_of_mem _ hx)
    cases e with
    | progress c tot s => simp [isLogEvent] at he
    | log m lv => simpa [cmdEvents] using hrest
    | cmd s => simp [isLogEvent] at he

/-- run_command produces the invocation marker followed by log lines only. -/
theorem run_command_events (env : Env) (c : String) :
    ∃ logs, (run_command env c).1 = Event.cmd c :: logs ∧ ∀ e ∈ logs, isLogEvent e = true := by
  unfold run_command
  by_cases h : env.cmdRaises c
  · rw [if_pos h]
    refine ⟨[Event.log ("[CMD] " ++ c) "INFO",
             Event.log ("[ERROR] Command failed: " ++ env.cmdErrorMsg c) "ERROR"], rfl, ?_⟩
    intro e he
    simp only [List.mem_cons, List.not_mem_nil, or_false] at he
    rcases he with rfl | rfl <;> rfl
  · rw [if_neg h]
    refine ⟨Event.log ("[CMD] " ++ c) "INFO" ::
      ((env.cmdOutput c).filterMap fun l =>
        if strip l == "" then none else some (Event.log (strip l) "INFO")), rfl, ?_⟩
    intro e he
    rcases List.mem_cons.mp he with rfl | he
    · rfl
    · rcases List.mem_filterMap.mp he with ⟨l, _, hl⟩
      by_cases hs : (strip l == "") = true
      · simp [hs] at hl
      · simp only [hs, if_false, Option.some.injEq, Bool.false_eq_true] at hl
        subst hl
        rfl

theorem no_progress_run_command (env : Env) (c : String) :
    ∀ e ∈ (run_command env c).1, isProgressEvent e = false := by
  obtain ⟨logs, heq, hlogs⟩ := run_command_events env c
  intro e he
  rw [heq] at he
  rcases List.mem_cons.mp he with he | he
  · simp [he, isProgressEvent]
  · have := hlogs e he
    cases e <;> simp_all [isLogEvent, isProgressEvent]

theorem cmdEvents_run_command (env : Env) (c : String) :
    cmdEvents (run_command env c).1 = [c] := by
  obtain ⟨logs, heq, hlogs⟩ := run_command_events env c
  rw [heq]
  rw [show cmdEvents (Event.cmd c :: logs) = c :: cmdEvents logs from rfl]
  rw [cmdEvents_of_logs logs hlogs]

theorem phaseTexts_run_command (env : Env) (c : String) :
    phaseTexts (run_command env c).1 = [] :=
  phaseTexts_eq_nil _ (no_progress_run_command env c)

theorem progressSteps_run_command (env : Env) (c : String) :
    progressSteps (run_command env c).1 = [] :=
  progressSteps_eq_nil _ (no_progress_run_command env c)

theorem no_progress_install_paru_loop (env : Env) :
    ∀ l, ∀ e ∈ install_paru_loop env l, isProgressEvent e = false := by
  intro l
  induction l with
  | nil => intro e he; simp [install_paru_loop] at he
  | cons c rest ih =>
    intro e he
    unfold install_paru_loop at he
    split at he
    · rcases List.mem_append.mp he with he | he
      · exact no_progress_run_command env c e he
      · exact ih e he
    · rcases List.mem_append.mp he with he | he
      · exact no_progress_run_command env c e he
      · rw [List.mem_singleton] at he
        subst he
        rfl

theorem no_progress_install_paru (env : Env) :
    ∀ e ∈ install_paru env, isProgressEvent e = false := by
  intro e he
  unfold install_paru at he
  rcases List.mem_cons.mp he with rfl | he
  · rfl
  · rcases List.mem_append.mp he with he | he
    · exact no_progress_run_command env _ e he
    · rcases List.mem_append.mp he with he | he
      · exact no_progress_install_paru_loop env _ e he
      · exact no_progress_run_command env _ e he

theorem no_progress_gpu_detection (g : String) :
    ∀ e ∈ (gpu_detection g).1, isProgressEvent e = false := by
  intro e he
  unfold gpu_detection at he
  split at he <;>
    first
      | (rw [List.mem_singleton] at he; subst he; rfl)
      | (split at he <;>
          first
            | (rw [List.mem_singleton] at he; subst he; rfl)
            | (split at he <;>
                first
                  | (rw [List.mem_singleton] at he; subst he; rfl)
                  | simp at he))

theorem no_progress_install_gpu_drivers (env : Env) :
    ∀ e ∈ install_gpu_drivers env, isProgressEvent e = false := by
  intro e he
  unfold install_gpu_drivers at he
  split at he
  · rw [List.mem_singleton] at he
    subst he
    rfl
  · rcases List.mem_append.mp he with he | he
    · exact no_progress_gpu_detection _ e he
    · split at he
      · rw [List.mem_singleton] at he
        subst he
        rfl
      · exact no_progress_run_command env _ e he

theorem no_progress_apply_optimizations (env : Env) :
    ∀ e ∈ apply_optimizations env, isProgressEvent e = false := by
  intro e he
  unfold apply_optimizations at he
  rcases List.mem_append.mp he with he | he
  · exact no_progress_run_command env _ e he
  · rcases List.mem_append.mp he with he | he
    · exact no_progress_run_command env _ e he
    · split at he
      · exact no_progress_run_command env _ e he
      · simp at he

theorem progressEvents_append (a b : List Event) :
    progressEvents (a ++ b) = progressEvents a ++ progressEvents b :=
  List.filterMap_append ..

theorem phaseTexts_eq_map (t : List Event) :
    phaseTexts t = (progressEvents t).map fun x => x.2.2 := by
  induction t with
  | nil => rfl
  | cons e rest ih =>
    cases e with
    | progress c tot s => simpa [phaseTexts, progressEvents] using ih
    | log m lv => simpa [phaseTexts, progressEvents] using ih
    | cmd s => simpa [phaseTexts, progressEvents] using ih

theorem progressSteps_eq_map (t : List Event) :
    progressSteps t = (progressEvents t).map fun x => (x.1, x.2.1) := by
  induction t with
  | nil => rfl
  | cons e rest ih =>
    cases e with
    | progress c tot s => simpa [progressSteps, progressEvents] using ih
    | log m lv => simpa [progressSteps, progressEvents] using ih
    | cmd s => simpa [progressSteps, progressEvents] using ih

theorem progressEvents_eq_nil (t : List Event) (h : ∀ e ∈ t, isProgressEvent e = false) :
    progressEvents t = [] := by
  induction t with
  | nil => rfl
  | cons e rest ih =>
    have he := h e (List.mem_cons_self ..)
    have hrest := ih fun x hx => h x (List.mem_cons_of_mem _ hx)
    cases e with
    | progress c tot s => simp [isProgressEvent] at he
    | log m lv => simpa [progressEvents] using hrest
    | cmd s => simpa [progressEvents] using hrest

theorem no_progress_cleanup_system (env : Env) :
    ∀ e ∈ cleanup_system env, isProgressEvent e = false := by
  intro e he
  unfold cleanup_system at he
  rcases List.mem_append.mp he with he | he
  · exact no_progress_run_command env _ e he
  · rcases List.mem_append.mp he with he | he
    · split at he
      · exact no_progress_run_command env _ e he
      · simp at he
    · split at he
      · split at he
        · rw [List.mem_singleton] at he
          subst he
          rfl
        · exact no_progress_run_command env _ e he
      · rw [List.mem_singleton] at he
        subst he
        rfl

theorem progressEvents_nil : progressEvents [] = [] := rfl

theorem progressEvents_cons_progress (c tot : Nat) (s : String) (t : List Event) :
    progressEvents (Event.progress c tot s :: t) = (c, tot, s) :: progressEvents t := rfl

theorem progressEvents_cons_log (m lv : String) (t : List Event) :
    progressEvents (Event.log m lv :: t) = progressEvents t := rfl

theorem progressEvents_run_command (env : Env) (c : String) :
    progressEvents (run_command env c).1 = [] :=
  progressEvents_eq_nil _ (no_progress_run_command env c)

theorem progressEvents_outcome_part (env : Env) (cmd sMsg wMsg : String) :
    progressEvents ((run_command env cmd).1 ++
      [if (run_command env cmd).2 then Event.log sMsg "SUCCESS"
       else Event.log wMsg "WARNING"]) = [] := by
  rw [progressEvents_append, progressEvents_run_command]
  split <;> rfl

theorem progressEvents_validation_ok (total : Nat) :
    progressEvents (validation_ok_segment total) = [(0, total, "Validating system...")] := rfl

theorem progressEvents_validation_failed (total : Nat) :
    progressEvents (validation_failed_trace total) = [(0, total, "Validating system...")] := rfl

theorem progressEvents_update (env : Env) (total : Nat) :
    progressEvents (update_segment env total) = [(1, total, "Updating system...")] := by
  unfold update_segment
  rw [progressEvents_cons_progress, progressEvents_cons_log, progressEvents_append,
      progressEvents_run_command]
  split <;> rfl

theorem progressEvents_paru (env : Env) (total : Nat) :
    progressEvents (paru_segment env total) = [(2, total, "Installing AUR helper...")] := by
  unfold paru_segment
  rw [progressEvents_cons_progress, progressEvents_cons_log, progressEvents_append]
  split
  · rfl
  · rw [progressEvents_eq_nil _ (no_progress_install_paru env)]
    rfl

theorem progressEvents_gpu (env : Env) (total : Nat) :
    progressEvents (gpu_segment env total) = [(3, total, "Installing GPU drivers...")] := by
  unfold gpu_segment
  rw [progressEvents_cons_progress, progressEvents_cons_log, progressEvents_append,
      progressEvents_eq_nil _ (no_progress_install_gpu_drivers env)]
  rfl

theorem progressEvents_category (env : Env) (total step : Nat) (c : PackageCategory) :
    progressEvents (category_segment env total step c) =
      [(step, total, "Installing " ++ c.name ++ "...")] := by
  unfold category_segment
  rw [progressEvents_cons_progress, progressEvents_cons_log, progressEvents_append,
      apply_ite progressEvents, apply_ite progressEvents,
      progressEvents_outcome_part, progressEvents_outcome_part, progressEvents_nil,
      ite_self, ite_self]
  rfl

theorem progressEvents_optimizations (env : Env) (total step : Nat) :
    progressEvents (optimizations_segment env total step) =
      [(step, total, "Applying optimizations...")] := by
  unfold optimizations_segment
  rw [progressEvents_cons_progress, progressEvents_cons_log, progressEvents_append,
      progressEvents_eq_nil _ (no_progress_apply_optimizations env)]
  rfl

theorem progressEvents_cleanup (env : Env) (total step : Nat) :
    progressEvents (cleanup_segment env total step) = [(step, total, "Cleaning system...")] := by
  unfold cleanup_segment
  rw [progressEvents_cons_progress, progressEvents_cons_log, progressEvents_append,
      progressEvents_eq_nil _ (no_progress_cleanup_system env)]
  rfl

theorem progressEvents_cat_segments (env : Env) (total : Nat) :
    ∀ (l : List PackageCategory) (k : Nat),
      progressEvents (cat_segments env total k l).flatten = catProg total k l := by
  intro l
  induction l with
  | nil => intro k; rfl
  | cons c rest ih =>
    intro k
    rw [show cat_segments env total k (c :: rest) =
          category_segment env total k c :: cat_segments env total (k + 1) rest from rfl]
    rw [List.flatten_cons, progressEvents_append, progressEvents_category, ih]
    rfl

/-- The progress updates of a run whose validation succeeds, in closed form. -/
theorem progressEvents_install (env : Env) (opts : Options) (cats : List PackageCategory)
    (hval : validate_system env.sys = true) :
    progressEvents (run_real_installation env opts cats) =
      (0, 5 + cats.length, "Validating system...") ::
      (1, 5 + cats.length, "Updating system...") ::
      (2, 5 + cats.length, "Installing AUR helper...") ::
      (3, 5 + cats.length, "Installing GPU drivers...") ::
      (catProg (5 + cats.length) 4 cats ++
       ((if opts.optimizations then
           [(4 + cats.length, 5 + cats.length, "Applying optimizations...")] else []) ++
        (if opts.cleanup then
           [(4 + cats.length, 5 + cats.length, "Cleaning system...")] else []))) := by
  unfold run_real_installation installSegments
  rw [if_pos hval]
  rw [List.flatten_cons, List.flatten_cons, List.flatten_cons, List.flatten_cons,
      List.flatten_append, List.flatten_append]
  rw [progressEvents_append, progressEvents_append, progressEvents_append,
      progressEvents_append, progressEvents_append, progressEvents_append,
      progressEvents_validation_ok, progressEvents_update, progressEvents_paru,
      progressEvents_gpu, progressEvents_cat_segments]
  by_cases ho : opts.optimizations <;> by_cases hc : opts.cleanup <;>
    simp only [ho, hc, if_true, if_false, Bool.false_eq_true, List.flatten_cons,
      List.flatten_nil, progressEvents_append, progressEvents_optimizations,
      progressEvents_cleanup, progressEvents_nil, List.append_nil, List.nil_append,
      List.cons_append, List.singleton_append]

theorem catProg_map_text (total : Nat) :
    ∀ (l : List PackageCategory) (k : Nat),
      (catProg total k l).map (fun x => x.2.2) =
        l.map fun c => "Installing " ++ c.name ++ "..." := by
  intro l
  induction l with
  | nil => intro k; rfl
  | cons c rest ih => intro k; simp [catProg, ih]

theorem catProg_map_step (total : Nat) :
    ∀ (l : List PackageCategory) (k : Nat),
      (catProg total k l).map (fun x => (x.1, x.2.1)) =
        (List.range' k l.length).map fun i => (i, total) := by
  intro l
  induction l with
  | nil => intro k; rfl
  | cons c rest ih =>
    intro k
    rw [show catProg total k (c :: rest) =
          (k, total, "Installing " ++ c.name ++ "...") :: catProg total (k + 1) rest from rfl]
    rw [List.map_cons, ih]
    rfl

/-! Wrapping of the installation blocks (claim C6). -/

theorem wrapped_cons (p i : Event) (l : List Event)
    (hp : isProgressEvent p = true) (hi : isInfoLogEvent i = true)
    (hl : l.getLast?.elim false isOutcomeLogEvent = true) :
    wrappedSegment (p :: i :: l) = true := by
  cases l with
  | nil => simp [Option.elim] at hl
  | cons x xs =>
    unfold wrappedSegment
    rw [List.getLast?_cons_cons, List.getLast?_cons_cons]
    simp only [List.head?_cons, List.drop_succ_cons, List.drop_zero, Option.elim]
    rw [hp, hi]
    simpa [Option.elim] using hl

theorem outcome_part_getLast (env : Env) (cmd sMsg wMsg : String) :
    ((run_command env cmd).1 ++
      [if (run_command env cmd).2 then Event.log sMsg "SUCCESS"
       else Event.log wMsg "WARNING"]).getLast? =
      some (if (run_command env cmd).2 then Event.log sMsg "SUCCESS"
            else Event.log wMsg "WARNING") :=
  List.getLast?_concat _

theorem outcome_part_last (env : Env) (cmd sMsg wMsg : String) :
    ((run_command env cmd).1 ++
      [if (run_command env cmd).2 then Event.log sMsg "SUCCESS"
       else Event.log wMsg "WARNING"]).getLast?.elim false isOutcomeLogEvent = true := by
  rw [outcome_part_getLast]
  split <;> rfl

theorem wrapped_validation_ok (total : Nat) :
    wrappedSegment (validation_ok_segment total) = true := rfl

theorem wrapped_update (env : Env) (total : Nat) :
    wrappedSegment (update_segment env total) = true := by
  unfold update_segment
  exact wrapped_cons _ _ _ rfl rfl (outcome_part_last env _ _ _)

theorem wrapped_paru (env : Env) (total : Nat) :
    wrappedSegment (paru_segment env total) = true := by
  unfold paru_segment
  refine wrapped_cons _ _ _ rfl rfl ?_
  rw [List.getLast?_concat]
  rfl

theorem wrapped_gpu (env : Env) (total : Nat) :
    wrappedSegment (gpu_segment env total) = true := by
  unfold gpu_segment
  refine wrapped_cons _ _ _ rfl rfl ?_
  rw [List.getLast?_concat]
  rfl

theorem wrapped_optimizations (env : Env) (total step : Nat) :
    wrappedSegment (optimizations_segment env total step) = true := by
  unfold optimizations_segment
  refine wrapped_cons _ _ _ rfl rfl ?_
  rw [List.getLast?_concat]
  rfl

theorem wrapped_cleanup (env : Env) (total step : Nat) :
    wrappedSegment (cleanup_segment env total step) = true := by
  unfold cleanup_segment
  refine wrapped_cons _ _ _ rfl rfl ?_
  rw [List.getLast?_concat]
  rfl

theorem wrapped_category (env : Env) (total step : Nat) (c : PackageCategory)
    (h : c.pacman_packages.isEmpty = false ∨ c.aur_packages.isEmpty = false) :
    wrappedSegment (category_segment env total step c) = true := by
  unfold category_segment
  refine wrapped_cons _ _ _ rfl rfl ?_
  by_cases hp : c.pacman_packages.isEmpty = true <;> by_cases ha : c.aur_packages.isEmpty = true
  · rcases h with h | h
    · rw [hp] at h
      exact absurd h (by simp)
    · rw [ha] at h
      exact absurd h (by simp)
  · rw [if_pos hp, if_neg ha, List.nil_append]
    exact outcome_part_last env _ _ _
  · rw [if_neg hp, if_pos ha, List.append_nil]
    exact outcome_part_last env _ _ _
  · rw [if_neg hp, if_neg ha, List.getLast?_append, outcome_part_getLast, Option.or_some]
    split <;> rfl

/-! Shell commands of the per-category loop. -/

theorem cmdEvents_nil : cmdEvents [] = [] := rfl

theorem cmdEvents_cons_progress (c tot : Nat) (s : String) (t : List Event) :
    cmdEvents (Event.progress c tot s :: t) = cmdEvents t := rfl

theorem cmdEvents_cons_log (m lv : String) (t : List Event) :
    cmdEvents (Event.log m lv :: t) = cmdEvents t := rfl

theorem cmdEvents_outcome_part (env : Env) (cmd sMsg wMsg : String) :
    cmdEvents ((run_command env cmd).1 ++
      [if (run_command env cmd).2 then Event.log sMsg "SUCCESS"
       else Event.log wMsg "WARNING"]) = [cmd] := by
  rw [cmdEvents_append, cmdEvents_run_command]
  split <;> rfl

theorem cmdEvents_category_segment (env : Env) (total step : Nat) (c : PackageCategory) :
    cmdEvents (category_segment env total step c) =
      (if c.pacman_packages.isEmpty then [] else
        ["sudo pacman -S --needed --noconfirm " ++ String.intercalate " " c.pacman_packages]) ++
      (if c.aur_packages.isEmpty then [] else
        ["paru -S --needed --noconfirm " ++ String.intercalate " " c.aur_packages]) := by
  unfold category_segment
  rw [cmdEvents_cons_progress, cmdEvents_cons_log, cmdEvents_append,
      apply_ite cmdEvents, apply_ite cmdEvents, cmdEvents_outcome_part, cmdEvents_outcome_part,
      cmdEvents_nil]

theorem map_cmdEvents_cat_segments (env : Env) (total : Nat) :
    ∀ (l : List PackageCategory) (k : Nat),
      (cat_segments env total k l).map cmdEvents =
        l.map fun c =>
          (if c.pacman_packages.isEmpty then [] else
            ["sudo pacman -S --needed --noconfirm " ++
             String.intercalate " " c.pacman_packages]) ++
          (if c.aur_packages.isEmpty then [] else
            ["paru -S --needed --noconfirm " ++ String.intercalate " " c.aur_packages]) := by
  intro l
  induction l with
  | nil => intro k; rfl
  | cons c rest ih =>
    intro k
    rw [show cat_segments env total k (c :: rest) =
          category_segment env total k c :: cat_segments env total (k + 1) rest from rfl]
    rw [List.map_cons, cmdEvents_category_segment, ih, List.map_cons]

theorem mem_cat_segments (env : Env) (total : Nat) :
    ∀ (l : List PackageCategory) (k : Nat) (seg : List Event),
      seg ∈ cat_segments env total k l →
      ∃ step c, c ∈ l ∧ seg = category_segment env total step c := by
  intro l
  induction l with
  | nil => intro k seg h; simp [cat_segments] at h
  | cons c rest ih =>
    intro k seg h
    rw [show cat_segments env total k (c :: rest) =
          category_segment env total k c :: cat_segments env total (k + 1) rest from rfl] at h
    rcases List.mem_cons.mp h with rfl | h
    · exact ⟨k, c, List.mem_cons_self .., rfl⟩
    · obtain ⟨step, c2, hc2, rfl⟩ := ih (k + 1) seg h
      exact ⟨step, c2, List.mem_cons_of_mem _ hc2, rfl⟩

/-! The failed-validation trace. -/

theorem run_install_validation_failed (env : Env) (opts : Options)
    (cats : List PackageCategory) (h : validate_system env.sys = false) :
    run_real_installation env opts cats = validation_failed_trace (5 + cats.length) := by
  unfold run_real_installation installSegments
  rw [if_neg (by rw [h]; exact Bool.false_ne_true)]
  simp [List.flatten_cons, List.flatten_nil]

/-! The runner invariant: one step of either thread preserves the multiset
and order of all the lines (already shown, queued, or still pending). -/

theorem runnerStep_content (s : RunnerState) (st : RunnerStep) :
    (runnerStep s st).shown.map Prod.fst ++
      ((runnerStep s st).q ++ (runnerStep s st).pending) =
    s.shown.map Prod.fst ++ (s.q ++ s.pending) := by
  cases st with
  | produce =>
    unfold runnerStep
    cases hs : s.pending with
    | nil => simp [hs]
    | cons l rest => simp
  | pollOne =>
    unfold runnerStep
    cases hs : s.q with
    | nil => simp [hs]
    | cons l rest => simp

theorem runSteps_content (steps : List RunnerStep) :
    ∀ s : RunnerState,
      (runSteps s steps).shown.map Prod.fst ++
        ((runSteps s steps).q ++ (runSteps s steps).pending) =
      s.shown.map Prod.fst ++ (s.q ++ s.pending) := by
  induction steps with
  | nil => intro s; rfl
  | cons st rest ih =>
    intro s
    rw [show runSteps s (st :: rest) = runSteps (runnerStep s st) rest from rfl, ih,
        runnerStep_content]

/-! Arithmetic of the progress bar (claim C9): properties of the closed-form
list of (current, total) pairs. -/

theorem progress_pairs_props (n : Nat) (b1 b2 : Bool) :
    List.Chain' (fun a b => a.1 ≤ b.1)
      (((List.range' 0 (n + 4)).map fun i => (i, 5 + n)) ++
       ((if b1 then [(4 + n, 5 + n)] else []) ++ (if b2 then [(4 + n, 5 + n)] else []))) ∧
    ∀ p ∈ (((List.range' 0 (n + 4)).map fun i => (i, 5 + n)) ++
       ((if b1 then [(4 + n, 5 + n)] else []) ++ (if b2 then [(4 + n, 5 + n)] else []))),
      p.1 < p.2 ∧ (100 * p.1) / p.2 < 100 := by
  have hmem : ∀ p ∈ (((List.range' 0 (n + 4)).map fun i => (i, 5 + n)) ++
      ((if b1 then [(4 + n, 5 + n)] else []) ++ (if b2 then [(4 + n, 5 + n)] else []))),
      p.1 ≤ 4 + n ∧ p.2 = 5 + n := by
    intro p hp
    rcases List.mem_append.mp hp with hp | hp
    · rcases List.mem_map.mp hp with ⟨i, hi, rfl⟩
      rw [List.mem_range'_1] at hi
      exact ⟨by omega, rfl⟩
    · rcases List.mem_append.mp hp with hp | hp
      · cases b1 with
        | false => simp at hp
        | true =>
          simp at hp
          rw [hp]
          exact ⟨Nat.le_refl _, rfl⟩
      · cases b2 with
        | false => simp at hp
        | true =>
          simp at hp
          rw [hp]
          exact ⟨Nat.le_refl _, rfl⟩
  constructor
  · apply List.Pairwise.chain'
    apply List.pairwise_append.mpr
    refine ⟨?_, ?_, ?_⟩
    · rw [List.pairwise_map]
      exact (List.pairwise_lt_range' 0 (n + 4)).imp fun h => Nat.le_of_lt h
    · cases b1 <;> cases b2 <;>
        simp [List.pairwise_append, List.Pairwise.nil, List.pairwise_cons]
    · intro a ha b hb
      rcases List.mem_map.mp ha with ⟨i, hi, rfl⟩
      rw [List.mem_range'_1] at hi
      have hb1 : b.1 = 4 + n := by
        rcases List.mem_append.mp hb with hb | hb
        · cases b1 with
          | false => simp at hb
          | true => simp at hb; rw [hb]
        · cases b2 with
          | false => simp at hb
          | true => simp at hb; rw [hb]
      rw [hb1]
      omega
  · intro p hp
    obtain ⟨h1, h2⟩ := hmem p hp
    refine ⟨by omega, ?_⟩
    have hb : 0 < p.2 := by omega
    rw [Nat.div_lt_iff_lt_mul hb]
    omega

/-! The claims. -/

/-- C1 (as stated, refuted): the claim says every installation run started
with a non-empty selection executes update, paru bootstrap, GPU drivers,
per-category installs and cleanup. At this concrete input the run validates,
one category is selected, yet no cleanup phase is executed, because the
Auto Cleanup option is cleared. -/
theorem c1_counterexample :
    validate_system env0.sys = true ∧ [gamingSel].length ≠ 0 ∧
    (phaseTexts (run_real_installation env0 optsNoCleanup [gamingSel])).contains
      "Cleaning system..." = false :=
  ⟨by decide, by decide, by decide⟩

/-- C1 (amended): for every installation run whose system validation succeeds,
the phases run as a linear sequence in this order: validation, system update,
AUR helper bootstrap, GPU driver detection and installation, one per-category
phase per selected category (in selection order), then optimizations when the
optimizations option is enabled and cleanup when the Auto Cleanup option is
enabled (both options default to enabled); moreover the paru bootstrap runs
`_install_paru` exactly when `_check_paru` reports paru missing. -/
theorem c1_install_phase_order (env : Env) (opts : Options) (cats : List PackageCategory)
    (hval : validate_system env.sys = true) :
    phaseTexts (run_real_installation env opts cats) =
      ["Validating system...", "Updating system...", "Installing AUR helper...",
       "Installing GPU drivers..."] ++
      ((cats.map fun c => "Installing " ++ c.name ++ "...") ++
       ((if opts.optimizations then ["Applying optimizations..."] else []) ++
        (if opts.cleanup then ["Cleaning system..."] else []))) ∧
    (env.paruInstalled = true →
      paru_segment env (5 + cats.length) =
        [Event.progress 2 (5 + cats.length) "Installing AUR helper...",
         Event.log "[INFO] Checking for paru AUR helper..." "INFO",
         Event.log "[SUCCESS] AUR helper ready" "SUCCESS"]) ∧
    (env.paruInstalled = false →
      paru_segment env (5 + cats.length) =
        Event.progress 2 (5 + cats.length) "Installing AUR helper..." ::
        Event.log "[INFO] Checking for paru AUR helper..." "INFO" ::
        (install_paru env ++ [Event.log "[SUCCESS] AUR helper ready" "SUCCESS"])) := by
  refine ⟨?_, ?_, ?_⟩
  · rw [phaseTexts_eq_map, progressEvents_install env opts cats hval,
        List.map_cons, List.map_cons, List.map_cons, List.map_cons, List.map_append,
        List.map_append, catProg_map_text,
        apply_ite (List.map fun x : Nat × Nat × String => x.2.2),
        apply_ite (List.map fun x : Nat × Nat × String => x.2.2)]
    rfl
  · intro hp
    unfold paru_segment
    rw [hp]
    rfl
  · intro hp
    unfold paru_segment
    rw [hp]
    rfl

theorem c1_witness :
    phaseTexts (run_real_installation env0 optsAll [gamingSel]) =
      ["Validating system...", "Updating system...", "Installing AUR helper...",
       "Installing GPU drivers..."] ++
      (([gamingSel].map fun c => "Installing " ++ c.name ++ "...") ++
       ((if optsAll.optimizations then ["Applying optimizations..."] else []) ++
        (if optsAll.cleanup then ["Cleaning system..."] else []))) ∧
    paru_segment env0 (5 + [gamingSel].length) =
      [Event.progress 2 (5 + [gamingSel].length) "Installing AUR helper...",
       Event.log "[INFO] Checking for paru AUR helper..." "INFO",
       Event.log "[SUCCESS] AUR helper ready" "SUCCESS"] :=
  ⟨(c1_install_phase_order env0 optsAll [gamingSel] (by decide)).1,
   (c1_install_phase_order env0 optsAll [gamingSel] (by decide)).2.1 rfl⟩

/-- C2: over every interleaving of the worker thread (which enqueues the
subprocess output lines in read order) and the UI timer (which dequeues lines
one at a time and appends them to the log), once every line has been read and
the queue has been drained, the log holds exactly the produced lines, each
once, in production order. -/
theorem c2_output_lines_in_order (lines : List String) (steps : List RunnerStep)
    (hpend : (runSteps { pending := lines, q := [], shown := [] } steps).pending = [])
    (hq : (runSteps { pending := lines, q := [], shown := [] } steps).q = []) :
    (runSteps { pending := lines, q := [], shown := [] } steps).shown.map Prod.fst =
      lines := by
  have h := runSteps_content steps { pending := lines, q := [], shown := [] }
  rw [hpend, hq] at h
  simpa using h

theorem c2_witness :
    (runSteps { pending := ["starting", "FAIL: broken"], q := [], shown := [] }
      [RunnerStep.produce, RunnerStep.pollOne, RunnerStep.produce,
       RunnerStep.pollOne]).shown.map Prod.fst = ["starting", "FAIL: broken"] :=
  c2_output_lines_in_order ["starting", "FAIL: broken"]
    [RunnerStep.produce, RunnerStep.pollOne, RunnerStep.produce, RunnerStep.pollOne]
    (by decide) (by decide)

/-- C3: one iteration of the per-category loop hands to `_run_command` exactly
the pacman command `sudo pacman -S --needed --noconfirm <pacman packages>`
when the pacman list is non-empty, and exactly the AUR command
`paru -S --needed --noconfirm <aur packages>` when the AUR list is non-empty,
and nothing else. -/
theorem c3_category_install_commands (env : Env) (total step : Nat) (c : PackageCategory) :
    cmdEvents (category_segment env total step c) =
      (if c.pacman_packages.isEmpty then [] else
        ["sudo pacman -S --needed --noconfirm " ++ String.intercalate " " c.pacman_packages]) ++
      (if c.aur_packages.isEmpty then [] else
        ["paru -S --needed --noconfirm " ++ String.intercalate " " c.aur_packages]) :=
  cmdEvents_category_segment env total step c

/-- C4: when `_start_installation` hands a category list to the installation
thread, that list is exactly the selected sublist of the categories at that
moment, and the per-category loop issues, for each handed category in order,
exactly the install commands of that category (so each selected category is
processed once and no packages of an unselected category are installed by the
loop). -/
theorem c4_selected_categories_once (st : AppState) (confirmed : Bool)
    (st2 : AppState) (sel : List PackageCategory)
    (h : start_installation st confirmed = (st2, some sel)) :
    sel = st.categories.filter (fun c => c.selected) ∧
    ∀ (env : Env) (total k : Nat),
      (cat_segments env total k sel).map cmdEvents =
        sel.map fun c =>
          (if c.pacman_packages.isEmpty then [] else
            ["sudo pacman -S --needed --noconfirm " ++
             String.intercalate " " c.pacman_packages]) ++
          (if c.aur_packages.isEmpty then [] else
            ["paru -S --needed --noconfirm " ++ String.intercalate " " c.aur_packages]) := by
  have hsel : sel = st.categories.filter fun c => c.selected := by
    unfold start_installation at h
    split at h
    · exact absurd (congrArg Prod.snd h) (by simp)
    · split at h
      · exact absurd (congrArg Prod.snd h) (by simp)
      · split at h
        · have h2 := congrArg Prod.snd h
          simp only [Option.some.injEq] at h2
          exact h2.symm
        · exact absurd (congrArg Prod.snd h) (by simp)
  exact ⟨hsel, fun env total k => map_cmdEvents_cat_segments env total sel k⟩

theorem c4_witness :
    [gamingSel] = stIdle.categories.filter (fun c => c.selected) ∧
    (cat_segments env0 6 4 [gamingSel]).map cmdEvents =
      [gamingSel].map fun c =>
        (if c.pacman_packages.isEmpty then [] else
          ["sudo pacman -S --needed --noconfirm " ++
           String.intercalate " " c.pacman_packages]) ++
        (if c.aur_packages.isEmpty then [] else
          ["paru -S --needed --noconfirm " ++ String.intercalate " " c.aur_packages]) :=
  ⟨(c4_selected_categories_once stIdle true stBusy [gamingSel] (by decide)).1,
   (c4_selected_categories_once stIdle true stBusy [gamingSel] (by decide)).2 env0 6 4⟩

/-- C5: invoking `_run_async` while the previously spawned subprocess has not
terminated changes nothing and spawns no worker (only a warning dialog is
shown), and pressing Start Installation while `is_installing` is set changes
nothing and starts no installation thread. -/
theorem c5_no_concurrent_execution (s : WrapState) (args : List String) (title : String)
    (st : AppState) (confirmed : Bool)
    (h1 : procRunning s.proc = true) (h2 : st.is_installing = true) :
    run_async s args title = (s, none) ∧ start_installation st confirmed = (st, none) := by
  constructor
  · unfold run_async
    rw [if_pos h1]
  · unfold start_installation
    rw [if_pos h2]

theorem c5_witness :
    run_async wrapBusy ["bash"] "Installing…" = (wrapBusy, none) ∧
    start_installation stBusy true = (stBusy, none) :=
  c5_no_concurrent_execution wrapBusy ["bash"] "Installing…" stBusy true rfl rfl

/-- C6: in a run whose system validation succeeds (and whose selected
categories each have at least one package list non-empty, as all six app
categories do), the trace is the concatenation of the installation blocks, and
every block is wrapped: it opens with a progress-bar update (carrying the
current step out of total steps) followed by an `[INFO]` log line, and closes
with a SUCCESS or WARNING log line. -/
theorem c6_phase_wrapping (env : Env) (opts : Options) (cats : List PackageCategory)
    (hval : validate_system env.sys = true)
    (hcats : ∀ c ∈ cats, c.pacman_packages.isEmpty = false ∨ c.aur_packages.isEmpty = false) :
    run_real_installation env opts cats = (installSegments env opts cats).flatten ∧
    ∀ seg ∈ installSegments env opts cats, wrappedSegment seg = true := by
  refine ⟨rfl, ?_⟩
  intro seg hseg
  unfold installSegments at hseg
  rw [if_pos hval] at hseg
  rcases List.mem_cons.mp hseg with rfl | hseg
  · exact wrapped_validation_ok _
  rcases List.mem_cons.mp hseg with rfl | hseg
  · exact wrapped_update env _
  rcases List.mem_cons.mp hseg with rfl | hseg
  · exact wrapped_paru env _
  rcases List.mem_cons.mp hseg with rfl | hseg
  · exact wrapped_gpu env _
  rcases List.mem_append.mp hseg with hseg | hseg
  · obtain ⟨step, c, hc, rfl⟩ := mem_cat_segments env _ cats 4 seg hseg
    exact wrapped_category env _ step c (hcats c hc)
  rcases List.mem_append.mp hseg with hseg | hseg
  · split at hseg
    · rw [List.mem_singleton] at hseg
      subst hseg
      exact wrapped_optimizations env _ _
    · simp at hseg
  · split at hseg
    · rw [List.mem_singleton] at hseg
      subst hseg
      exact wrapped_cleanup env _ _
    · simp at hseg

theorem c6_witness :
    run_real_installation env0 optsAll [gamingSel] =
      (installSegments env0 optsAll [gamingSel]).flatten ∧
    wrappedSegment (validation_ok_segment 6) = true :=
  ⟨(c6_phase_wrapping env0 optsAll [gamingSel] (by decide) (by decide)).1,
   (c6_phase_wrapping env0 optsAll [gamingSel] (by decide) (by decide)).2
     (validation_ok_segment 6) (by decide)⟩

/-- C7: `_validate_system` returns true exactly when /etc/os-release could be
read and contains "Arch Linux", the effective uid is non-zero, and the single
5-second-timeout ping exited 0 (any exception, modelled as a missing
os-release read or ping result, yields false); and when it returns false the
run aborts with the error `System validation failed`, handing no command at
all to `_run_command` (in particular no pacman command). -/
theorem c7_validation (e : SysEnv) (env : Env) (opts : Options) (cats : List PackageCategory) :
    (validate_system e = true ↔
      ((∃ txt, e.osRelease = some txt ∧ strContains txt "Arch Linux" = true) ∧
       e.euid ≠ 0 ∧ e.pingExit = some 0)) ∧
    (validate_system env.sys = false →
      cmdEvents (run_real_installation env opts cats) = [] ∧
      Event.log "[ERROR] Installation failed: System validation failed" "ERROR" ∈
        run_real_installation env opts cats) := by
  constructor
  · constructor
    · intro hv
      unfold validate_system at hv
      cases ho : e.osRelease with
      | none => rw [ho] at hv; simp at hv
      | some txt =>
        rw [ho] at hv
        by_cases hc : strContains txt "Arch Linux" = true
        · by_cases he : (e.euid == 0) = true
          · simp [hc, he] at hv
          · cases hping : e.pingExit with
            | none => simp [hc, he, hping] at hv
            | some rc =>
              rw [hping] at hv
              simp only [hc, Bool.not_true, Bool.false_eq_true, if_false, he] at hv
              refine ⟨⟨txt, rfl, hc⟩, ?_, ?_⟩
              · intro h0
                exact he (by simp [h0])
              · rw [show rc = 0 from by simpa using hv]
        · simp [hc] at hv
    · rintro ⟨⟨txt, ho, hc⟩, he, hping⟩
      unfold validate_system
      rw [ho, hping]
      simp [hc, he]
  · intro hv
    rw [run_install_validation_failed env opts cats hv]
    exact ⟨rfl, by simp [validation_failed_trace]⟩

theorem c7_witness :
    validate_system sysArch = true ∧
    cmdEvents (run_real_installation envRoot optsAll [gamingSel]) = [] ∧
    Event.log "[ERROR] Installation failed: System validation failed" "ERROR" ∈
      run_real_installation envRoot optsAll [gamingSel] :=
  ⟨(c7_validation sysArch envRoot optsAll [gamingSel]).1.mpr
     ⟨⟨"NAME=\"Arch Linux\"", rfl, by decide⟩, by decide, rfl⟩,
   ((c7_validation sysArch envRoot optsAll [gamingSel]).2 (by decide)).1,
   ((c7_validation sysArch envRoot optsAll [gamingSel]).2 (by decide)).2⟩

theorem count_ite_append_other (l : List String) (b : Bool) (x : String)
    (hx : (x == "--gaming-extras") = false) :
    (if b then l ++ [x] else l).count "--gaming-extras" = l.count "--gaming-extras" := by
  split
  · rw [List.count_append]
    simp [List.count_cons, hx]
  · rfl

theorem contains_ite_append_other (l : List String) (b : Bool) (x : String)
    (hx : x ≠ "--gaming-extras") :
    (if b then l ++ [x] else l).contains "--gaming-extras" = l.contains "--gaming-extras" := by
  split
  · simp [List.elem_eq_mem, Ne.symm hx]
  · rfl

/-- C8: in `run_install`, when the selected profile is `gaming` the built
argument list contains `--gaming-extras` exactly once whatever the Gaming
extras checkbox holds; for any other selectable profile the flag is present
iff the checkbox is set. (The hypotheses only exclude the pathological profile
and script strings equal to the flag itself, which the GUI cannot produce.) -/
theorem c8_gaming_extras_flag (script profile : String)
    (g chromium chrome spotify : Bool)
    (hs : script ≠ "--gaming-extras") (hp : profile ≠ "--gaming-extras") :
    (profile = "gaming" →
      (run_install_args script profile g chromium chrome spotify).count
        "--gaming-extras" = 1) ∧
    (profile ≠ "gaming" →
      (run_install_args script profile g chromium chrome spotify).contains
        "--gaming-extras" = g) := by
  have hbase : "--gaming-extras" ∉ ["bash", script, "--yes", "--profile", profile] := by
    intro hmem
    simp only [List.mem_cons, List.not_mem_nil, or_false] at hmem
    rcases hmem with h | h | h | h | h
    · simp at h
    · exact hs h.symm
    · simp at h
    · simp at h
    · exact hp h.symm
  constructor
  · intro hgam
    subst hgam
    simp only [run_install_args]
    rw [count_ite_append_other _ spotify _ (by decide),
        count_ite_append_other _ chrome _ (by decide),
        count_ite_append_other _ chromium _ (by decide)]
    by_cases hg : g = true
    · rw [if_pos hg]
      have hcont : (["bash", script, "--yes", "--profile", "gaming"] ++
          ["--gaming-extras"]).contains "--gaming-extras" = true := by
        simp [List.elem_eq_mem]
      simp only [hcont, Bool.not_true, Bool.and_false, Bool.false_eq_true, if_false]
      rw [List.count_append, List.count_eq_zero.mpr hbase]
      simp [List.count_cons]
    · rw [if_neg hg]
      have hcont : (["bash", script, "--yes", "--profile",
          ("gaming" : String)]).contains "--gaming-extras" = false := by
        simp [List.elem_eq_mem, hbase]
      have hgg : (("gaming" : String) == "gaming") = true := by decide
      simp only [hcont, hgg, Bool.not_false, Bool.true_and, if_true]
      rw [List.count_append, List.count_eq_zero.mpr hbase]
      simp [List.count_cons]
  · intro hgam
    simp only [run_install_args]
    rw [contains_ite_append_other _ spotify _ (by decide),
        contains_ite_append_other _ chrome _ (by decide),
        contains_ite_append_other _ chromium _ (by decide)]
    have hpg : (profile == "gaming") = false := by simpa using hgam
    simp only [hpg, Bool.false_and, Bool.false_eq_true, if_false]
    by_cases hg : g = true
    · rw [if_pos hg, hg]
      simp [List.elem_eq_mem]
    · have hg2 : g = false := by
        cases g
        · rfl
        · exact absurd rfl hg
      rw [if_neg hg, hg2]
      simp [List.elem_eq_mem, hbase]

theorem c8_witness :
    (run_install_args "/opt/v5/simple-postinstall.sh" "gaming" false false false false).count
      "--gaming-extras" = 1 ∧
    (run_install_args "/opt/v5/simple-postinstall.sh" "minimal" false false false false).contains
      "--gaming-extras" = false :=
  ⟨(c8_gaming_extras_flag "/opt/v5/simple-postinstall.sh" "gaming" false false false false
      (by decide) (by decide)).1 rfl,
   (c8_gaming_extras_flag "/opt/v5/simple-postinstall.sh" "minimal" false false false false
      (by decide) (by decide)).2 (by decide)⟩

/-- C9: in every installation run, the (current, total) pairs handed to
`_update_progress` (total being 5 plus the number of selected categories) have
non-decreasing current values, and every update stays strictly below 100%:
current < total, so the displayed truncated percentage 100*current/total is
below 100 (the text `100%` comes only from `_installation_completed`). -/
theorem c9_progress_monotone (env : Env) (opts : Options) (cats : List PackageCategory) :
    List.Chain' (fun a b => a.1 ≤ b.1)
      (progressSteps (run_real_installation env opts cats)) ∧
    ∀ p ∈ progressSteps (run_real_installation env opts cats),
      p.1 < p.2 ∧ (100 * p.1) / p.2 < 100 := by
  by_cases hval : validate_system env.sys = true
  · rw [progressSteps_eq_map, progressEvents_install env opts cats hval,
        List.map_cons, List.map_cons, List.map_cons, List.map_cons, List.map_append,
        List.map_append, catProg_map_step,
        apply_ite (List.map fun x : Nat × Nat × String => (x.1, x.2.1)),
        apply_ite (List.map fun x : Nat × Nat × String => (x.1, x.2.1))]
    simp only [List.map_cons, List.map_nil]
    exact progress_pairs_props cats.length opts.optimizations opts.cleanup
  · have hv : validate_system env.sys = false := by
      cases hvv : validate_system env.sys
      · rfl
      · exact absurd hvv hval
    rw [progressSteps_eq_map, run_install_validation_failed env opts cats hv,
        progressEvents_validation_failed, List.map_cons, List.map_nil]
    constructor
    · simp
    · intro p hp
      rw [List.mem_singleton] at hp
      subst hp
      refine ⟨?_, ?_⟩
      · show (0 : Nat) < 5 + cats.length
        omega
      · show (100 * 0) / (5 + cats.length) < 100
        simp

theorem c9_witness :
    List.Chain' (fun a b => a.1 ≤ b.1)
      (progressSteps (run_real_installation env0 optsAll [gamingSel])) ∧
    ((0, 6) : Nat × Nat).1 < ((0, 6) : Nat × Nat).2 ∧
      (100 * ((0, 6) : Nat × Nat).1) / ((0, 6) : Nat × Nat).2 < 100 :=
  ⟨(c9_progress_monotone env0 optsAll [gamingSel]).1,
   (c9_progress_monotone env0 optsAll [gamingSel]).2 (0, 6) (by decide)⟩

end Autoinstall
